import Mathlib

/-!
Verification of the git-helper-vscode extension core.

Shallow embedding of the three core modules:
* `steps.ts` — the static walkthrough step catalog (`WALKTHROUGH_STEPS`);
* `gitCommands.ts` — `runGitCommand`, which runs `git` via `execFile` in the
  first workspace folder, logs to the output channel, and normalizes the
  outcome into a `GitCommandResult`;
* `walkthroughProvider.ts` — `WalkthroughProvider._handleMessage`, which
  receives `runStep` messages from the webview, optionally collects user
  input, composes the argument list and delegates to `runGitCommand`,
  relaying status/result messages back to the webview.

External effects (the output channel, `execFile`, `showInputBox`,
`postMessage`, `showErrorMessage`) are modelled as explicit data: the
process outcome and the input-box response are oracles passed in, and all
emitted events are collected in the returned outcome structures, in
emission order.
-/

namespace GitHelper

/-- The `requiresInput` payload of a step (`steps.ts`, `WalkthroughStep`). -/
structure InputRequest where
  prompt : String
  placeholder : String
deriving DecidableEq

/-- One walkthrough step (`steps.ts`, interface `WalkthroughStep`).
The display-only prose fields `title`, `description` and `notes` are
omitted from the embedding; no control flow reads them. -/
structure WalkthroughStep where
  id : String
  command : String
  args : List String
  requiresInput : Option InputRequest
deriving DecidableEq

/-- The step catalog (`steps.ts`, `WALKTHROUGH_STEPS`), in source order. -/
def WALKTHROUGH_STEPS : List WalkthroughStep := [
  ⟨"check-git", "git --version", ["--version"], none⟩,
  ⟨"init-repo", "git init", ["init"], none⟩,
  ⟨"check-status", "git status", ["status"], none⟩,
  ⟨"make-changes", "git status", ["status"], none⟩,
  ⟨"stage-files", "git add .", ["add", "."], none⟩,
  ⟨"commit", "git commit -m \"your message\"", ["commit", "-m"],
    some ⟨"Enter your commit message", "e.g., Add initial project files"⟩⟩,
  ⟨"add-remote", "git remote add origin <url>", ["remote", "add", "origin"],
    some ⟨"Enter your GitHub repository URL", "https://github.com/username/my-repo.git"⟩⟩,
  ⟨"push", "git push -u origin main", ["push", "-u", "origin", "main"], none⟩,
  ⟨"pull", "git pull", ["pull"], none⟩]

/-- The commit step of the catalog, named for concrete instantiations. -/
def commitStep : WalkthroughStep :=
  ⟨"commit", "git commit -m \"your message\"", ["commit", "-m"],
    some ⟨"Enter your commit message", "e.g., Add initial project files"⟩⟩

/-- Outcome of the external `execFile("git", args, {cwd}, cb)` call, as seen
by its callback. `exited code stdout stderr errMessage` means the process
ran and exited with `code`; per Node semantics the callback `error` is null
iff `code = 0`, and `errMessage` is `error.message` when non-null.
`spawnFailed errMessage` means the process could not be started: `error` is
non-null with message `errMessage` and both output streams are empty. -/
inductive ProcOutcome where
  | exited (code : Nat) (stdout stderr errMessage : String)
  | spawnFailed (errMessage : String)
deriving DecidableEq

/-- The `stdout` string the callback receives. -/
def ProcOutcome.stdout : ProcOutcome → String
  | .exited _ o _ _ => o
  | .spawnFailed _ => ""

/-- The `stderr` string the callback receives. -/
def ProcOutcome.stderr : ProcOutcome → String
  | .exited _ _ e _ => e
  | .spawnFailed _ => ""

/-- The callback `error` argument: `some message` when non-null. -/
def ProcOutcome.error : ProcOutcome → Option String
  | .exited c _ _ m => if c = 0 then none else some m
  | .spawnFailed m => some m

/-- The exit status: `some code` if the process ran, `none` on spawn failure. -/
def ProcOutcome.exitCode : ProcOutcome → Option Nat
  | .exited c _ _ _ => some c
  | .spawnFailed _ => none

/-- Result type of `runGitCommand` (`gitCommands.ts`, `GitCommandResult`). -/
structure GitCommandResult where
  success : Bool
  output : String
deriving DecidableEq

/-- One call on the output channel: `appendLine(text)` or `show()`
(`showPanel` here, since `show` is a Lean keyword). -/
inductive ChannelEvent where
  | appendLine (text : String)
  | showPanel
deriving DecidableEq

/-- Everything observable from one `runGitCommand` call: the resolved
promise value, the output-channel calls in order, the
`window.showErrorMessage` popups, and the argument lists actually handed
to `execFile` (empty when no process is spawned). -/
structure RunOutcome where
  result : GitCommandResult
  log : List ChannelEvent
  errorPopups : List String
  execs : List (List String)
deriving DecidableEq

/-- Whitespace as JavaScript `String.prototype.trim` recognizes it
(restricted to the ASCII whitespace that can occur here). -/
def jsWhitespace (c : Char) : Bool :=
  c = ' ' || c = '\t' || c = '\n' || c = '\r' || c = '\x0b' || c = '\x0c'

/-- JavaScript `s.trim()`: drop leading and trailing whitespace.
Defined over the character list so it evaluates by kernel reduction. -/
def jsTrim (s : String) : String :=
  ⟨((s.data.dropWhile jsWhitespace).reverse.dropWhile jsWhitespace).reverse⟩

/-- The fixed message of `gitCommands.ts` line 63: the two string literals
joined by `+`. -/
def NO_FOLDER_MSG : String :=
  "No folder is open in VS Code. Please open a folder first " ++
  "(File > Open Folder)."

/-- JavaScript `a.includes(" ")`: the string has a space character
(a one-character needle occurs iff some character equals it). -/
def includesSpace (a : String) : Bool :=
  a.data.any (fun c => c = ' ')

/-- The display quoting of `gitCommands.ts` line 80: wrap an argument in
double quotes when it contains a space, else leave it as is. -/
def quoteForDisplay (a : String) : String :=
  if includesSpace a then "\"" ++ a ++ "\"" else a

/-- The display command line (`gitCommands.ts` lines 77-81):
`"git " + args.map(quote).join(" ")`. -/
def displayCmd (args : List String) : String :=
  "git " ++ String.intercalate " " (args.map quoteForDisplay)

/-- `runGitCommand(args, outputChannel)` from `gitCommands.ts`.
`ws` models `vscode.workspace.workspaceFolders` (`none` = undefined), as
the list of folder `uri.fsPath`s; `proc` is the outcome `execFile`
delivers to the callback when a process is spawned. -/
def runGitCommand (ws : Option (List String)) (args : List String)
    (proc : ProcOutcome) : RunOutcome :=
  match ws with
  | none =>
    ⟨⟨false, NO_FOLDER_MSG⟩,
     [.appendLine ("ERROR: " ++ NO_FOLDER_MSG), .showPanel],
     [NO_FOLDER_MSG], []⟩
  | some [] =>
    ⟨⟨false, NO_FOLDER_MSG⟩,
     [.appendLine ("ERROR: " ++ NO_FOLDER_MSG), .showPanel],
     [NO_FOLDER_MSG], []⟩
  | some (cwd :: _) =>
    let output := jsTrim (proc.stdout ++ proc.stderr)
    match proc.error with
    | some m =>
      ⟨⟨false, if output = "" then m else output⟩,
       [.appendLine ("> " ++ displayCmd args),
        .appendLine ("  (in: " ++ cwd ++ ")"),
        .appendLine "---",
        .appendLine ("ERROR:\n" ++ (if output = "" then m else output)),
        .showPanel,
        .appendLine ""],
       [], [args]⟩
    | none =>
      ⟨⟨true, if output = "" then "(no output)" else output⟩,
       [.appendLine ("> " ++ displayCmd args),
        .appendLine ("  (in: " ++ cwd ++ ")"),
        .appendLine "---",
        .appendLine (if output = "" then "(no output)" else output),
        .showPanel,
        .appendLine ""],
       [], [args]⟩

/-- An inbound webview message (`walkthroughProvider.ts` line 91):
`{ type: string; stepId: string }`. -/
structure WebviewMessage where
  type : String
  stepId : String
deriving DecidableEq

/-- Outcome of `vscode.window.showInputBox`: `cancelled` models the
`undefined` return (Escape), `submitted s` a typed string. -/
inductive InputResponse where
  | cancelled
  | submitted (value : String)
deriving DecidableEq

/-- An outbound `postMessage` to the webview: `_sendStatusToWebview`
posts `{type: "status", stepId, status}`, `_sendResultToWebview` posts
`{type: "result", stepId, success, output}`. The message arrives because
`_view` is set in `resolveWebviewView` before any webview message can be
received. -/
inductive OutboundMsg where
  | status (stepId : String) (status : String)
  | result (stepId : String) (success : Bool) (output : String)
deriving DecidableEq

/-- Everything observable from one `_handleMessage` call: the step catalog
after the call (the source never writes to it; `[...step.args]` copies the
template before any push), the webview posts in order, the output-channel
calls, the error popups, and the spawned argument lists. -/
structure HandleOutcome where
  catalog : List WalkthroughStep
  webview : List OutboundMsg
  log : List ChannelEvent
  errorPopups : List String
  execs : List (List String)
deriving DecidableEq

/-- The synthesized cancellation message (`walkthroughProvider.ts` line 119). -/
def CANCEL_MSG : String := "Cancelled — no input provided."

/-- Lines 131-138 of `walkthroughProvider.ts`: post the "running" status,
run the git command, post the result. -/
def runStepArgs (catalog : List WalkthroughStep) (step : WalkthroughStep)
    (args : List String) (ws : Option (List String)) (proc : ProcOutcome) :
    HandleOutcome :=
  let r := runGitCommand ws args proc
  ⟨catalog,
   [.status step.id "running", .result step.id r.result.success r.result.output],
   r.log, r.errorPopups, r.execs⟩

/-- `WalkthroughProvider._handleMessage(message)` from
`walkthroughProvider.ts`, parameterized by the catalog the module-level
`WALKTHROUGH_STEPS` binding holds (so catalog preservation is statable).
`inp` is the oracle for `showInputBox` (consulted only when the step
declares `requiresInput`); `ws` and `proc` are the oracles `runGitCommand`
needs. `let args := step.args` models `let args = [...step.args]`: lists
are values, so the later append acts on the copy, never on the catalog. -/
def handleMessageWith (catalog : List WalkthroughStep)
    (message : WebviewMessage) (inp : InputResponse)
    (ws : Option (List String)) (proc : ProcOutcome) : HandleOutcome :=
  if message.type ≠ "runStep" then ⟨catalog, [], [], [], []⟩
  else
    match catalog.find? (fun s => s.id == message.stepId) with
    | none => ⟨catalog, [], [], [], []⟩
    | some step =>
      let args := step.args
      match step.requiresInput with
      | some _ =>
        match inp with
        | .cancelled =>
          ⟨catalog, [.result step.id false CANCEL_MSG], [], [], []⟩
        | .submitted userInput =>
          if jsTrim userInput = "" then
            ⟨catalog, [.result step.id false CANCEL_MSG], [], [], []⟩
          else
            runStepArgs catalog step (args ++ [userInput]) ws proc
      | none => runStepArgs catalog step args ws proc

/-- `_handleMessage` over the actual imported catalog. -/
def handleMessage (message : WebviewMessage) (inp : InputResponse)
    (ws : Option (List String)) (proc : ProcOutcome) : HandleOutcome :=
  handleMessageWith WALKTHROUGH_STEPS message inp ws proc

/-- One trigger delivered to `_handleMessage`, with its oracles. -/
structure RunEvent where
  msg : WebviewMessage
  inp : InputResponse
  ws : Option (List String)
  proc : ProcOutcome

/-- The catalog binding after a sequence of `_handleMessage` calls, each
call seeing the catalog state the previous one left. -/
def runSequence : List WalkthroughStep → List RunEvent → List WalkthroughStep
  | cat, [] => cat
  | cat, e :: es => runSequence (handleMessageWith cat e.msg e.inp e.ws e.proc).catalog es

/-! ## Helper lemmas -/

/-- `runGitCommand` either spawns nothing or spawns exactly the argument
list it was given. -/
theorem runGitCommand_execs_cases (ws : Option (List String))
    (args : List String) (proc : ProcOutcome) :
    (runGitCommand ws args proc).execs = [] ∨
    (runGitCommand ws args proc).execs = [args] := by
  cases ws with
  | none => exact Or.inl rfl
  | some l =>
    cases l with
    | nil => exact Or.inl rfl
    | cons cwd rest =>
      cases proc with
      | exited code o e msg =>
        by_cases hc : code = 0 <;>
          simp [runGitCommand, ProcOutcome.error, hc]
      | spawnFailed msg =>
        simp [runGitCommand, ProcOutcome.error]

/-- `_handleMessage` never changes the catalog binding. -/
theorem handleMessageWith_catalog_eq (cat : List WalkthroughStep)
    (m : WebviewMessage) (inp : InputResponse) (ws : Option (List String))
    (proc : ProcOutcome) :
    (handleMessageWith cat m inp ws proc).catalog = cat := by
  unfold handleMessageWith
  split
  · rfl
  · split
    · rfl
    · split
      · split
        · rfl
        · split
          · rfl
          · rfl
      · rfl

/-! ## Claims -/

/-- C1: for every step declaring `requiresInput`, when the user submits an
input that is non-empty after trimming, the handler delegates to the runner
with exactly the step's argument template plus the raw input appended as a
single final element, and the argument count is the template's length plus
one. -/
theorem C1_input_appended (sid : String) (step : WalkthroughStep)
    (u : String) (ws : Option (List String)) (proc : ProcOutcome)
    (hfind : WALKTHROUGH_STEPS.find? (fun s => s.id == sid) = some step)
    (hreq : step.requiresInput.isSome)
    (hne : jsTrim u ≠ "") :
    handleMessage ⟨"runStep", sid⟩ (.submitted u) ws proc
        = runStepArgs WALKTHROUGH_STEPS step (step.args ++ [u]) ws proc
      ∧ (step.args ++ [u]).length = step.args.length + 1 := by
  obtain ⟨req, hreq'⟩ := Option.isSome_iff_exists.mp hreq
  refine ⟨?_, by simp⟩
  unfold handleMessage handleMessageWith
  simp only [ne_eq, not_true_eq_false, if_false, hfind, hreq', if_neg hne]

/-- C1 witness: the commit step with input "fix bug" resolves to
`["commit", "-m", "fix bug"]`. -/
theorem C1_input_appended_witness :
    handleMessage ⟨"runStep", "commit"⟩ (.submitted "fix bug")
        (some ["/repo"]) (.exited 0 "" "" "")
        = runStepArgs WALKTHROUGH_STEPS commitStep
            (commitStep.args ++ ["fix bug"]) (some ["/repo"]) (.exited 0 "" "" "")
      ∧ (commitStep.args ++ ["fix bug"]).length = commitStep.args.length + 1 :=
  C1_input_appended "commit" commitStep "fix bug" (some ["/repo"])
    (.exited 0 "" "" "") (by decide) (by decide) (by decide)

/-- C2: whenever the process is actually spawned (a workspace folder
exists), the runner reports success exactly when the process exits with
status 0; every non-zero exit and every spawn failure yields failure. -/
theorem C2_success_iff_exit_zero (cwd : String) (rest : List String)
    (args : List String) (proc : ProcOutcome) :
    (runGitCommand (some (cwd :: rest)) args proc).execs = [args] ∧
    ((runGitCommand (some (cwd :: rest)) args proc).result.success = true ↔
      proc.exitCode = some 0) := by
  cases proc with
  | exited code o e msg =>
    by_cases hc : code = 0 <;>
      simp [runGitCommand, ProcOutcome.error, ProcOutcome.exitCode, hc]
  | spawnFailed msg =>
    simp [runGitCommand, ProcOutcome.error, ProcOutcome.exitCode]

/-- C3: for every spawned invocation, the result's output text is
stdout ++ stderr trimmed; if that is empty it is instead the system error
description when the process failed, and the literal "(no output)"
placeholder when it succeeded. -/
theorem C3_output_text (cwd : String) (rest : List String)
    (args : List String) (proc : ProcOutcome) :
    (runGitCommand (some (cwd :: rest)) args proc).result.output =
      if jsTrim (proc.stdout ++ proc.stderr) = "" then
        match proc.error with
        | some m => m
        | none => "(no output)"
      else jsTrim (proc.stdout ++ proc.stderr) := by
  cases proc with
  | exited code o e msg =>
    by_cases hc : code = 0 <;>
      by_cases ho : jsTrim (o ++ e) = "" <;>
        simp [runGitCommand, ProcOutcome.error, ProcOutcome.stdout,
          ProcOutcome.stderr, hc, ho]
  | spawnFailed msg =>
    by_cases ho : jsTrim ("" ++ "") = "" <;>
      simp [runGitCommand, ProcOutcome.error, ProcOutcome.stdout,
        ProcOutcome.stderr, ho]

/-- C4: when no workspace folder is available, the runner spawns nothing
and returns a failure result carrying the fixed explanatory message, while
still appending to the log sink and making it visible. -/
theorem C4_no_workspace (ws : Option (List String)) (args : List String)
    (proc : ProcOutcome) (h : ws = none ∨ ws = some []) :
    (runGitCommand ws args proc).execs = [] ∧
    (runGitCommand ws args proc).result = ⟨false, NO_FOLDER_MSG⟩ ∧
    (runGitCommand ws args proc).log =
      [.appendLine ("ERROR: " ++ NO_FOLDER_MSG), .showPanel] := by
  rcases h with h | h <;> subst h <;> exact ⟨rfl, rfl, rfl⟩

/-- C4 witness: a `git status` invocation with no workspace open. -/
theorem C4_no_workspace_witness :
    (runGitCommand none ["status"] (.exited 0 "" "" "")).execs = [] ∧
    (runGitCommand none ["status"] (.exited 0 "" "" "")).result
      = ⟨false, NO_FOLDER_MSG⟩ ∧
    (runGitCommand none ["status"] (.exited 0 "" "" "")).log =
      [.appendLine ("ERROR: " ++ NO_FOLDER_MSG), .showPanel] :=
  C4_no_workspace none ["status"] (.exited 0 "" "" "") (Or.inl rfl)

/-- C5: for every step declaring `requiresInput`, cancelling the prompt or
submitting an all-whitespace value yields no process execution, no log
write, no popup, and a single synthesized failure result carrying the
fixed cancellation message. -/
theorem C5_cancelled_input (sid : String) (step : WalkthroughStep)
    (inp : InputResponse) (ws : Option (List String)) (proc : ProcOutcome)
    (hfind : WALKTHROUGH_STEPS.find? (fun s => s.id == sid) = some step)
    (hreq : step.requiresInput.isSome)
    (hcancel : inp = .cancelled ∨ ∃ u, inp = .submitted u ∧ jsTrim u = "") :
    handleMessage ⟨"runStep", sid⟩ inp ws proc =
      ⟨WALKTHROUGH_STEPS, [.result step.id false CANCEL_MSG], [], [], []⟩ := by
  obtain ⟨req, hreq'⟩ := Option.isSome_iff_exists.mp hreq
  unfold handleMessage handleMessageWith
  rcases hcancel with h | ⟨u, hu, ht⟩
  · subst h
    simp only [ne_eq, not_true_eq_false, if_false, hfind, hreq']
  · subst hu
    simp only [ne_eq, not_true_eq_false, if_false, hfind, hreq', if_pos ht]

/-- C5 witness: cancelling the commit step's input box. -/
theorem C5_cancelled_input_witness :
    handleMessage ⟨"runStep", "commit"⟩ .cancelled
        (some ["/repo"]) (.exited 0 "" "" "") =
      ⟨WALKTHROUGH_STEPS, [.result commitStep.id false CANCEL_MSG],
        [], [], []⟩ :=
  C5_cancelled_input "commit" commitStep .cancelled (some ["/repo"])
    (.exited 0 "" "" "") (by decide) (by decide) (Or.inl rfl)

/-- C6 counterexample: invoking the runner with no workspace folder is an
invocation whose log block contains neither a working-directory line nor a
blank separator line — it is exactly the error line plus a show call — so
the claim does not hold of every invocation. -/
theorem C6_counterexample :
    (runGitCommand none ["status"] (.exited 0 "On branch main" "" "")).log =
      [.appendLine ("ERROR: " ++ NO_FOLDER_MSG), .showPanel] ∧
    ChannelEvent.appendLine "" ∉
      (runGitCommand none ["status"] (.exited 0 "On branch main" "" "")).log := by
  exact ⟨rfl, by decide⟩

/-- C6 (amended): for every invocation in which the process is spawned
(a workspace folder is available), regardless of the process outcome, the
log sink receives exactly: the command line with whitespace-containing
arguments re-quoted, the working directory, a "---" divider, the captured
output line, a show call, and a blank separator line. -/
theorem C6_log_block (cwd : String) (rest : List String)
    (args : List String) (proc : ProcOutcome) :
    (runGitCommand (some (cwd :: rest)) args proc).log =
      [.appendLine ("> " ++ displayCmd args),
       .appendLine ("  (in: " ++ cwd ++ ")"),
       .appendLine "---",
       .appendLine
         (match proc.error with
          | some m => "ERROR:\n" ++
              (if jsTrim (proc.stdout ++ proc.stderr) = "" then m
               else jsTrim (proc.stdout ++ proc.stderr))
          | none =>
              if jsTrim (proc.stdout ++ proc.stderr) = "" then "(no output)"
              else jsTrim (proc.stdout ++ proc.stderr)),
       .showPanel,
       .appendLine ""] := by
  cases proc with
  | exited code o e msg =>
    by_cases hc : code = 0 <;>
      simp [runGitCommand, ProcOutcome.error, ProcOutcome.stdout,
        ProcOutcome.stderr, hc]
  | spawnFailed msg =>
    simp [runGitCommand, ProcOutcome.error, ProcOutcome.stdout,
      ProcOutcome.stderr]

/-- C7: a runStep trigger whose id is not in the catalog is dropped with
no observable effect: no webview message, no log write, no popup, no
process execution. -/
theorem C7_unknown_step (sid : String) (inp : InputResponse)
    (ws : Option (List String)) (proc : ProcOutcome)
    (hfind : WALKTHROUGH_STEPS.find? (fun s => s.id == sid) = none) :
    handleMessage ⟨"runStep", sid⟩ inp ws proc =
      ⟨WALKTHROUGH_STEPS, [], [], [], []⟩ := by
  unfold handleMessage handleMessageWith
  simp only [ne_eq, not_true_eq_false, if_false, hfind]

/-- C7 witness: triggering the absent id "no-such-step". -/
theorem C7_unknown_step_witness :
    handleMessage ⟨"runStep", "no-such-step"⟩ .cancelled
        (some ["/repo"]) (.exited 0 "" "" "") =
      ⟨WALKTHROUGH_STEPS, [], [], [], []⟩ :=
  C7_unknown_step "no-such-step" .cancelled (some ["/repo"])
    (.exited 0 "" "" "") (by decide)

/-- C8: for every runStep trigger of a known step id, the webview receives
either exactly one result message, or exactly one "running" status message
followed by exactly one result message — never more — and every message
carries the originating step id. -/
theorem C8_notifications (sid : String) (step : WalkthroughStep)
    (inp : InputResponse) (ws : Option (List String)) (proc : ProcOutcome)
    (hfind : WALKTHROUGH_STEPS.find? (fun s => s.id == sid) = some step) :
    ∃ b o, (handleMessage ⟨"runStep", sid⟩ inp ws proc).webview
        = [.result sid b o]
      ∨ (handleMessage ⟨"runStep", sid⟩ inp ws proc).webview
        = [.status sid "running", .result sid b o] := by
  have hid : step.id = sid := by
    have hp := List.find?_some hfind
    simpa using hp
  unfold handleMessage handleMessageWith
  simp only [ne_eq, not_true_eq_false, if_false, hfind]
  cases hreq : step.requiresInput with
  | none =>
    exact ⟨(runGitCommand ws step.args proc).result.success,
           (runGitCommand ws step.args proc).result.output,
           Or.inr (by simp [runStepArgs, hid])⟩
  | some req =>
    cases inp with
    | cancelled => exact ⟨false, CANCEL_MSG, Or.inl (by simp [hid])⟩
    | submitted u =>
      by_cases ht : jsTrim u = ""
      · exact ⟨false, CANCEL_MSG, Or.inl (by simp [ht, hid])⟩
      · exact ⟨(runGitCommand ws (step.args ++ [u]) proc).result.success,
               (runGitCommand ws (step.args ++ [u]) proc).result.output,
               Or.inr (by simp [runStepArgs, ht, hid])⟩

/-- C8 witness: a successful run of the check-git step posts the running
status and then one result, both tagged "check-git". -/
theorem C8_notifications_witness :
    ∃ b o, (handleMessage ⟨"runStep", "check-git"⟩ .cancelled
          (some ["/repo"]) (.exited 0 "git version 2.39.5" "" "")).webview
        = [.result "check-git" b o]
      ∨ (handleMessage ⟨"runStep", "check-git"⟩ .cancelled
          (some ["/repo"]) (.exited 0 "git version 2.39.5" "" "")).webview
        = [.status "check-git" "running", .result "check-git" b o] :=
  C8_notifications "check-git"
    ⟨"check-git", "git --version", ["--version"], none⟩ .cancelled
    (some ["/repo"]) (.exited 0 "git version 2.39.5" "" "") (by decide)

/-- C9: no sequence of invocations mutates the step catalog — the handler
copies the argument template before appending — and every argument list a
handler call passes to the spawned process is some catalog step's template
with at most one element appended. -/
theorem C9_catalog_immutable (cat : List WalkthroughStep)
    (events : List RunEvent) (m : WebviewMessage) (inp : InputResponse)
    (ws : Option (List String)) (proc : ProcOutcome) :
    runSequence cat events = cat ∧
    ∀ a ∈ (handleMessageWith cat m inp ws proc).execs,
      ∃ step, step ∈ cat ∧
        (a = step.args ∨ ∃ u, a = step.args ++ [u]) := by
  constructor
  · induction events generalizing cat with
    | nil => rfl
    | cons e es ih =>
      show runSequence (handleMessageWith cat e.msg e.inp e.ws e.proc).catalog es = cat
      rw [handleMessageWith_catalog_eq]
      exact ih cat
  · intro a ha
    unfold handleMessageWith at ha
    split at ha
    · simp at ha
    · split at ha
      · simp at ha
      · rename_i step hfind
        have hmem : step ∈ cat := List.mem_of_find?_eq_some hfind
        split at ha
        · split at ha
          · simp at ha
          · split at ha
            · simp at ha
            · rename_i u _
              rcases runGitCommand_execs_cases ws (step.args ++ [u]) proc with
                h | h <;> simp only [runStepArgs, h] at ha
              · simp at ha
              · rw [List.mem_singleton] at ha
                exact ⟨step, hmem, Or.inr ⟨u, ha⟩⟩
        · rcases runGitCommand_execs_cases ws step.args proc with
            h | h <;> simp only [runStepArgs, h] at ha
          · simp at ha
          · rw [List.mem_singleton] at ha
            exact ⟨step, hmem, Or.inl ha⟩

/-- C10: any inbound message whose type is not "runStep" is ignored
entirely: no webview message, no log write, no popup, no process
execution, and the catalog is untouched. -/
theorem C10_non_runstep (t sid : String) (inp : InputResponse)
    (ws : Option (List String)) (proc : ProcOutcome)
    (h : t ≠ "runStep") :
    handleMessage ⟨t, sid⟩ inp ws proc =
      ⟨WALKTHROUGH_STEPS, [], [], [], []⟩ := by
  unfold handleMessage handleMessageWith
  exact if_pos h

/-- C10 witness: a message of type "status" is ignored even with a valid
step id attached. -/
theorem C10_non_runstep_witness :
    handleMessage ⟨"status", "commit"⟩ .cancelled
        (some ["/repo"]) (.exited 0 "" "" "") =
      ⟨WALKTHROUGH_STEPS, [], [], [], []⟩ :=
  C10_non_runstep "status" "commit" .cancelled (some ["/repo"])
    (.exited 0 "" "" "") (by decide)

end GitHelper
